import Mathlib

/-!
# Verification of the ResolveAI repayment-optimization engine

Shallow embedding of `backend/app/services/optimization_service.py`,
the plan-generation core of `backend/app/services/plan_service.py`, and the
AI-plan validator of `backend/app/agents/optimization_agent.py`.

Modelling conventions:
* Python floats are modelled as exact rationals (`ℚ`); the literal `0.01`
  is rendered as `1/100` and `0.01` elsewhere likewise.
* Debt ids (UUID strings in the source) are opaque and modelled as `Nat`.
* The source keeps per-debt balances in a `dict` keyed by `debt.id`; debts
  come from the database with unique primary keys, so the dictionary is
  rendered positionally as a list of `(DebtInfo, balance)` pairs that the
  monthly loop walks in the same order as the Python `for debt in debts`.
* Calendar dates are dropped (month counters are kept); no claim concerns
  the calendar.
-/

/-- `DebtInfo` from `optimization_service.py` (lines 19-26). -/
structure DebtInfo where
  id : Nat
  name : String
  balance : ℚ
  apr : ℚ
  minimum_payment : ℚ
deriving DecidableEq

/-- `RepaymentStrategy` from `app/models/plan.py`. -/
inductive RepaymentStrategy where
  | avalanche
  | snowball
deriving DecidableEq

/-- `PaymentScheduleItem` from `app/models/plan.py` (calendar date dropped). -/
structure PaymentScheduleItem where
  month : Nat
  debt_id : Nat
  payment_amount : ℚ
  principal : ℚ
  interest : ℚ
  remaining_balance : ℚ
  is_payoff_month : Bool
deriving DecidableEq

/-- `MonthlyBreakdown` from `app/models/plan.py`. -/
structure MonthlyBreakdown where
  month : Nat
  total_payment : ℚ
  payments : List PaymentScheduleItem
  total_remaining : ℚ
deriving DecidableEq

/-- `PlanProjection` from `app/models/plan.py`. -/
structure PlanProjection where
  month : Nat
  total_remaining : ℚ
  cumulative_interest_paid : ℚ
  cumulative_principal_paid : ℚ
deriving DecidableEq

/-- `DebtPayoffInfo` from `app/models/plan.py`. -/
structure DebtPayoffInfo where
  debt_id : Nat
  payoff_month : Nat
  total_interest_paid : ℚ
  total_paid : ℚ
deriving DecidableEq

/-- `OptimizationResult` from `optimization_service.py` (lines 29-39);
`total_months` is an `Int` because AI candidate plans may carry any integer
there (`_validate_ai_plan` re-checks its sign). `debt_free_date` dropped. -/
structure OptimizationResult where
  total_months : Int
  total_interest : ℚ
  total_paid : ℚ
  monthly_payment : ℚ
  monthly_schedule : List MonthlyBreakdown
  projections : List PlanProjection
  payoff_order : List DebtPayoffInfo
deriving DecidableEq

/-- `sorted(debts, key=..., reverse=...)` is a stable sort; `insertKey lt d l`
inserts `d` into `l` before the first element `e` with `¬ lt e d`, which is
exactly the standard stable insertion step (later input elements never jump
in front of equal-key earlier ones). -/
def insertKey {α : Type} (lt : α → α → Bool) (d : α) : List α → List α
  | [] => [d]
  | e :: es => if lt e d then e :: insertKey lt d es else d :: e :: es

/-- Stable sort (rendering of Python's stable `sorted`). -/
def sortKey {α : Type} (lt : α → α → Bool) (l : List α) : List α :=
  l.foldr (insertKey lt) []

/-- `OptimizationService._sort_debts` (lines 156-167): avalanche sorts by
descending APR, snowball by ascending balance; both stable. -/
def sort_debts (debts : List DebtInfo) (strategy : RepaymentStrategy) : List DebtInfo :=
  match strategy with
  | .avalanche => sortKey (fun a b => decide (b.apr < a.apr)) debts
  | .snowball => sortKey (fun a b => decide (a.balance < b.balance)) debts

/-- The running accumulator of one month of `_simulate_payoff`:
`remaining_budget`, the global `total_interest_paid` / `total_principal_paid`
counters, this month's `month_payments`, and the global `payoff_order`. -/
structure MonthAcc where
  budget : ℚ
  ti : ℚ
  tp : ℚ
  items : List PaymentScheduleItem
  payoffs : List DebtPayoffInfo
deriving DecidableEq

/-- Minimum-payment step for one debt (`_simulate_payoff` lines 214-251):
`b` is the debt's current balance, `interest` its precomputed
`interest_this_month`; returns the updated accumulator and the new balance. -/
def payMinimum (month : Nat) (acc : MonthAcc) (d : DebtInfo) (b interest : ℚ) : MonthAcc × ℚ :=
  if b ≤ 1/100 then (acc, b)
  else
    let min_payment := min d.minimum_payment (b + interest)
    if min_payment ≤ acc.budget then
      let principal := max 0 (min_payment - interest)
      let b2 := b - principal
      let ti2 := acc.ti + interest
      let tp2 := acc.tp + principal
      let is_payoff := decide (b2 ≤ 1/100)
      let item : PaymentScheduleItem :=
        ⟨month, d.id, min_payment, principal, interest, max 0 b2, is_payoff⟩
      let payoffs2 :=
        if is_payoff && !(acc.payoffs.any (fun p => p.debt_id == d.id)) then
          acc.payoffs ++ [⟨d.id, month, ti2, tp2 + ti2⟩]
        else acc.payoffs
      (⟨acc.budget - min_payment, ti2, tp2, acc.items ++ [item], payoffs2⟩, b2)
    else (acc, b)

/-- First phase of a month: pay minimums on all active debts in order
(`_simulate_payoff` lines 214-251). -/
def payMinimums (month : Nat) (acc : MonthAcc) :
    List (DebtInfo × ℚ × ℚ) → MonthAcc × List (DebtInfo × ℚ)
  | [] => (acc, [])
  | (d, b, i) :: rest =>
    let r1 := payMinimum month acc d b i
    let r2 := payMinimums month r1.1 rest
    (r2.1, (d, r1.2) :: r2.2)

/-- Replace the first schedule item carrying `did` (the source finds
`existing_payment` as the first item with this `debt_id` and replaces it at
its index). -/
def updateFirstItem (did : Nat) (f : PaymentScheduleItem → PaymentScheduleItem) :
    List PaymentScheduleItem → List PaymentScheduleItem
  | [] => []
  | p :: ps => if p.debt_id == did then f p :: ps else p :: updateFirstItem did f ps

/-- Second phase of a month (`_simulate_payoff` lines 253-301): walk the
debts in strategy order, skip those paid off or without an existing payment
record, and apply all leftover budget to the first remaining one, capped at
its balance; the Python loop `break`s after that first debt. -/
def payExtra (month : Nat) (acc : MonthAcc) :
    List (DebtInfo × ℚ) → MonthAcc × List (DebtInfo × ℚ)
  | [] => (acc, [])
  | (d, b) :: rest =>
    if b ≤ 1/100 ∨ acc.items.all (fun p => !(p.debt_id == d.id)) then
      let r := payExtra month acc rest
      (r.1, (d, b) :: r.2)
    else
      let extra := min acc.budget b
      if 0 < extra then
        let b2 := b - extra
        let tp2 := acc.tp + extra
        let is_payoff := decide (b2 ≤ 1/100)
        let items2 := updateFirstItem d.id
          (fun p => ⟨p.month, p.debt_id, p.payment_amount + extra, p.principal + extra,
                     p.interest, max 0 b2, is_payoff⟩) acc.items
        let payoffs2 :=
          if is_payoff && !(acc.payoffs.any (fun p => p.debt_id == d.id)) then
            acc.payoffs ++ [⟨d.id, month, acc.ti, tp2 + acc.ti⟩]
          else acc.payoffs
        (⟨acc.budget - extra, acc.ti, tp2, items2, payoffs2⟩, (d, b2) :: rest)
      else (acc, (d, b) :: rest)

/-- Simulation state threaded through the monthly loop of `_simulate_payoff`. -/
structure SimState where
  debts : List (DebtInfo × ℚ)
  month : Nat
  total_interest : ℚ
  total_principal : ℚ
  schedule : List MonthlyBreakdown
  projections : List PlanProjection
  payoff_order : List DebtPayoffInfo
deriving DecidableEq

/-- The `interest_this_month` computation (`_simulate_payoff` lines 201-208):
interest accrues from start-of-month balances, zero for inactive debts. -/
def withInterestOf (s : SimState) : List (DebtInfo × ℚ × ℚ) :=
  s.debts.map (fun p =>
    (p.1, p.2, if 1/100 < p.2 then p.2 * p.1.apr / 12 / 100 else 0))

/-- Payment allocation of one month (`_simulate_payoff` lines 210-301):
minimums first, then — only when budget remains — the acceleration pass. -/
def monthResult (mp : ℚ) (s : SimState) : MonthAcc × List (DebtInfo × ℚ) :=
  let acc0 : MonthAcc := ⟨mp, s.total_interest, s.total_principal, [], s.payoff_order⟩
  let r1 := payMinimums (s.month + 1) acc0 (withInterestOf s)
  if 0 < r1.1.budget then payExtra (s.month + 1) r1.1 r1.2 else r1

/-- One iteration of the monthly loop (`_simulate_payoff` lines 198-326):
allocate this month's payments, then record the breakdown and projection. -/
def monthStep (mp : ℚ) (s : SimState) : SimState :=
  let month := s.month + 1
  let r2 := monthResult mp s
  let total_remaining := (r2.2.map (fun p => max 0 p.2)).sum
  let breakdown : MonthlyBreakdown :=
    ⟨month, (r2.1.items.map (fun p => p.payment_amount)).sum, r2.1.items, total_remaining⟩
  let proj : PlanProjection := ⟨month, total_remaining, r2.1.ti, r2.1.tp⟩
  ⟨r2.2, month, r2.1.ti, r2.1.tp, s.schedule ++ [breakdown],
   s.projections ++ [proj], r2.1.payoffs⟩

/-- The `while any(b > 0.01 ...) and month < max_months` loop, with the
remaining iteration allowance as fuel (600 at entry). -/
def simLoop (mp : ℚ) : Nat → SimState → SimState
  | 0, s => s
  | fuel + 1, s =>
    if s.debts.any (fun p => decide ((1:ℚ)/100 < p.2)) then
      simLoop mp fuel (monthStep mp s)
    else s

/-- Initial simulation state (`_simulate_payoff` lines 181-196). -/
def initState (debts : List DebtInfo) : SimState :=
  ⟨debts.map (fun d => (d, d.balance)), 0, 0, 0, [], [], []⟩

/-- `OptimizationService._simulate_payoff` (lines 169-339). -/
def simulate_payoff (debts : List DebtInfo) (monthly_payment : ℚ) : OptimizationResult :=
  let s := simLoop monthly_payment 600 (initState debts)
  ⟨(s.month : Int), s.total_interest, s.total_principal + s.total_interest,
   monthly_payment, s.schedule, s.projections, s.payoff_order⟩

/-- Budget computation of `calculate_plan` (lines 88-97): cap at total
balance + 1000, then raise to the minimum-payment total when below it. -/
def planMonthlyPayment (sorted_debts : List DebtInfo) (available_monthly extra_payment : ℚ) : ℚ :=
  let min_payment_total := (sorted_debts.map (fun d => d.minimum_payment)).sum
  let monthly_payment :=
    min (available_monthly + extra_payment)
      ((sorted_debts.map (fun d => d.balance)).sum + 1000)
  if monthly_payment < min_payment_total then min_payment_total else monthly_payment

/-- `OptimizationService.calculate_plan` (lines 45-105). -/
def calculate_plan (debts : List DebtInfo) (available_monthly : ℚ)
    (strategy : RepaymentStrategy) (extra_payment : ℚ) : OptimizationResult :=
  if debts = [] then ⟨0, 0, 0, 0, [], [], []⟩
  else
    let sorted_debts := sort_debts debts strategy
    simulate_payoff sorted_debts (planMonthlyPayment sorted_debts available_monthly extra_payment)

/-- One month of `calculate_minimum_only_plan` (lines 137-152): every active
debt pays exactly its minimum; the principal is `payment - interest`
(not floored), and the new balance is `max 0 (balance - principal)`.
Returns the new balances and the interest accrued this month. -/
def minOnlyMonth : List (DebtInfo × ℚ) → List (DebtInfo × ℚ) × ℚ
  | [] => ([], 0)
  | (d, b) :: rest =>
    let r := minOnlyMonth rest
    if b ≤ 1/100 then ((d, b) :: r.1, r.2)
    else
      let interest := b * d.apr / 12 / 100
      let payment := min d.minimum_payment (b + interest)
      let principal := payment - interest
      ((d, max 0 (b - principal)) :: r.1, r.2 + interest)

/-- Monthly loop of `calculate_minimum_only_plan`; state is
(balances, total_interest, month). -/
def minOnlyLoop : Nat → List (DebtInfo × ℚ) × ℚ × Nat → List (DebtInfo × ℚ) × ℚ × Nat
  | 0, s => s
  | fuel + 1, s =>
    if s.1.any (fun p => decide ((1:ℚ)/100 < p.2)) then
      minOnlyLoop fuel ((minOnlyMonth s.1).1, s.2.1 + (minOnlyMonth s.1).2, s.2.2 + 1)
    else s

/-- `OptimizationService.calculate_minimum_only_plan` (lines 107-154),
returning `(total_months, total_interest)`. -/
def calculate_minimum_only_plan (debts : List DebtInfo) : Nat × ℚ :=
  if debts = [] then (0, 0)
  else
    let s := minOnlyLoop 600 (debts.map (fun d => (d, d.balance)), 0, 0)
    (s.2.2, s.2.1)

/-- `OptimizationAgent._validate_ai_plan` (optimization_agent.py lines
809-849): sign checks on the top-level metrics, **set** equality between the
input debt ids and the `payoff_order` ids, then the final month's
`total_remaining` must not exceed 1.0. The Python `try/except` wrapper has
no effect on this pure model. -/
def validate_ai_plan (plan : OptimizationResult) (debt_infos : List DebtInfo) : Bool :=
  if plan.total_months ≤ 0 then false
  else if plan.total_interest < 0 then false
  else if (debt_infos.map (fun d => d.id)).toFinset ≠
      (plan.payoff_order.map (fun p => p.debt_id)).toFinset then false
  else
    match plan.monthly_schedule.getLast? with
    | some lastMonth => if 1 < lastMonth.total_remaining then false else true
    | none => false

/-- Python `custom or available`: `0.0` and `None` are falsy
(`plan_service.py` line 77). -/
def budgetOf (custom : Option ℚ) (available : ℚ) : ℚ :=
  match custom with
  | some c => if c = 0 then available else c
  | none => available

/-- Decision core of `PlanService.generate_plan` (plan_service.py lines
26-117): database access, decryption and persistence are outside the model;
what remains is the only input validation performed (empty debt list) and
the call into `calculate_plan`. -/
def generate_plan (debt_infos : List DebtInfo) (custom_monthly_budget : Option ℚ)
    (available_for_debt : ℚ) (strategy : RepaymentStrategy) (extra_monthly_payment : ℚ) :
    Except String OptimizationResult :=
  if debt_infos = [] then .error "No active debts to create a plan for"
  else .ok (calculate_plan debt_infos (budgetOf custom_monthly_budget available_for_debt)
      strategy extra_monthly_payment)

/-- Whether a `generate_plan` outcome is the rejection channel. -/
def isError (r : Except String OptimizationResult) : Bool :=
  match r with
  | .error _ => true
  | .ok _ => false

/-! ## Helper quantities used by the theorems -/

/-- Sum of the `interest` fields of a list of schedule items. -/
def sumInterest (l : List PaymentScheduleItem) : ℚ := (l.map (fun p => p.interest)).sum

/-- Sum of the `principal` fields of a list of schedule items. -/
def sumPrincipal (l : List PaymentScheduleItem) : ℚ := (l.map (fun p => p.principal)).sum

/-- Sum of the `payment_amount` fields of a list of schedule items. -/
def sumPayment (l : List PaymentScheduleItem) : ℚ := (l.map (fun p => p.payment_amount)).sum

/-- Raw sum of the balances of a simulation debt list. -/
def balTotal (l : List (DebtInfo × ℚ)) : ℚ := (l.map (fun p => p.2)).sum

/-- The recorded `total_remaining` quantity: sum of clamped balances
(`sum(max(0, b) for b in balances.values())`). -/
def remTotal (l : List (DebtInfo × ℚ)) : ℚ := (l.map (fun p => max 0 p.2)).sum

/-- A schedule item that pays a debt beyond that debt's own minimum payment
(the "acceleration" of the strategy). -/
def overMin (ds : List DebtInfo) (p : PaymentScheduleItem) : Bool :=
  ds.any (fun d => d.id == p.debt_id && decide (d.minimum_payment < p.payment_amount))

/-! ## Stable sorting: structure of `insertKey` / `sortKey` -/

theorem insertKey_perm {α : Type} (lt : α → α → Bool) (d : α) (l : List α) :
    (insertKey lt d l).Perm (d :: l) := by
  induction l with
  | nil => simp [insertKey]
  | cons e es ih =>
    by_cases h : lt e d = true
    · simp only [insertKey, h, if_true]
      exact ((ih.cons e).trans (List.Perm.swap d e es))
    · simp only [insertKey, h]
      simp

theorem mem_insertKey {α : Type} {lt : α → α → Bool} {d x : α} {l : List α}
    (h : x ∈ insertKey lt d l) : x = d ∨ x ∈ l :=
  List.mem_cons.mp ((insertKey_perm lt d l).mem_iff.1 h)

theorem insertKey_pairwise {α : Type} {lt : α → α → Bool}
    (hasym : ∀ a b, lt a b = true → lt b a = false)
    (htrans : ∀ a b c, lt b a = false → lt c b = false → lt c a = false)
    {d : α} {l : List α} (hl : l.Pairwise (fun a b => lt b a = false)) :
    (insertKey lt d l).Pairwise (fun a b => lt b a = false) := by
  induction l with
  | nil => simp [insertKey]
  | cons e es ih =>
    rw [List.pairwise_cons] at hl
    cases h : lt e d with
    | true =>
      simp only [insertKey, h, if_true]
      rw [List.pairwise_cons]
      refine ⟨fun x hx => ?_, ih hl.2⟩
      rcases mem_insertKey hx with rfl | hx2
      · exact hasym e x h
      · exact hl.1 x hx2
    | false =>
      simp only [insertKey, h, Bool.false_eq_true, if_false]
      rw [List.pairwise_cons]
      refine ⟨fun x hx => ?_, List.Pairwise.cons hl.1 hl.2⟩
      rcases List.mem_cons.mp hx with rfl | hx2
      · exact h
      · exact htrans d e x h (hl.1 x hx2)

theorem sortKey_perm {α : Type} (lt : α → α → Bool) (l : List α) :
    (sortKey lt l).Perm l := by
  induction l with
  | nil => simp [sortKey]
  | cons e es ih =>
    exact (insertKey_perm lt e (sortKey lt es)).trans (ih.cons e)

theorem sortKey_pairwise {α : Type} {lt : α → α → Bool}
    (hasym : ∀ a b, lt a b = true → lt b a = false)
    (htrans : ∀ a b c, lt b a = false → lt c b = false → lt c a = false)
    (l : List α) :
    (sortKey lt l).Pairwise (fun a b => lt b a = false) := by
  induction l with
  | nil => simp [sortKey]
  | cons e es ih =>
    exact insertKey_pairwise hasym htrans ih

/-- Stability of the insertion step: filtering on any value of the sort key
commutes with inserting, provided the comparison only separates distinct
keys. Later elements never cross earlier equal-key ones. -/
theorem insertKey_filter {α : Type} {lt : α → α → Bool} {κ : α → ℚ}
    (hkey : ∀ a b, lt a b = true → κ a ≠ κ b)
    (d : α) (l : List α) (k : ℚ) :
    (insertKey lt d l).filter (fun x => decide (κ x = k)) =
      if κ d = k then d :: l.filter (fun x => decide (κ x = k))
      else l.filter (fun x => decide (κ x = k)) := by
  induction l with
  | nil =>
    by_cases h : κ d = k <;> simp [insertKey, List.filter, h]
  | cons e es ih =>
    by_cases h : lt e d = true
    · have hne : κ e ≠ κ d := hkey e d h
      simp only [insertKey, h, if_true]
      by_cases hdk : κ d = k
      · have hek : ¬ (κ e = k) := fun he => hne (he.trans hdk.symm)
        simp [List.filter_cons, hek, ih, hdk]
      · simp [List.filter_cons, ih, hdk]
    · simp only [insertKey, h, if_false]
      by_cases hdk : κ d = k <;> simp [List.filter_cons, hdk]

/-- Stability of the stable sort: the sublist with any fixed key value is
exactly the input's sublist with that key value (ties keep input order). -/
theorem sortKey_filter {α : Type} {lt : α → α → Bool} {κ : α → ℚ}
    (hkey : ∀ a b, lt a b = true → κ a ≠ κ b)
    (l : List α) (k : ℚ) :
    (sortKey lt l).filter (fun x => decide (κ x = k)) =
      l.filter (fun x => decide (κ x = k)) := by
  induction l with
  | nil => simp [sortKey]
  | cons e es ih =>
    show (insertKey lt e (sortKey lt es)).filter (fun x => decide (κ x = k)) = _
    rw [insertKey_filter hkey]
    by_cases hek : κ e = k
    · simp [List.filter_cons, hek, ih]
    · simp [List.filter_cons, hek, ih]


/-! ## Per-debt minimum-payment step: projection characterizations -/

theorem payMinimum_snd (month : Nat) (acc : MonthAcc) (d : DebtInfo) (b i : ℚ) :
    (payMinimum month acc d b i).2 =
      if b ≤ 1/100 then b
      else if min d.minimum_payment (b + i) ≤ acc.budget then
        b - max 0 (min d.minimum_payment (b + i) - i)
      else b := by
  simp only [payMinimum]
  split_ifs <;> rfl

theorem payMinimum_ti (month : Nat) (acc : MonthAcc) (d : DebtInfo) (b i : ℚ) :
    (payMinimum month acc d b i).1.ti =
      if b ≤ 1/100 then acc.ti
      else if min d.minimum_payment (b + i) ≤ acc.budget then acc.ti + i
      else acc.ti := by
  simp only [payMinimum]
  split_ifs <;> rfl

theorem payMinimum_tp (month : Nat) (acc : MonthAcc) (d : DebtInfo) (b i : ℚ) :
    (payMinimum month acc d b i).1.tp =
      if b ≤ 1/100 then acc.tp
      else if min d.minimum_payment (b + i) ≤ acc.budget then
        acc.tp + max 0 (min d.minimum_payment (b + i) - i)
      else acc.tp := by
  simp only [payMinimum]
  split_ifs <;> rfl

theorem payMinimum_items (month : Nat) (acc : MonthAcc) (d : DebtInfo) (b i : ℚ) :
    (payMinimum month acc d b i).1.items =
      if b ≤ 1/100 then acc.items
      else if min d.minimum_payment (b + i) ≤ acc.budget then
        acc.items ++
          [⟨month, d.id, min d.minimum_payment (b + i),
            max 0 (min d.minimum_payment (b + i) - i), i,
            max 0 (b - max 0 (min d.minimum_payment (b + i) - i)),
            decide (b - max 0 (min d.minimum_payment (b + i) - i) ≤ 1/100)⟩]
      else acc.items := by
  simp only [payMinimum]
  split_ifs <;> rfl

/-! ## Per-debt minimum-payment step: basic facts -/

theorem payMinimum_balance_le (month : Nat) (acc : MonthAcc) (d : DebtInfo) (b i : ℚ) :
    (payMinimum month acc d b i).2 ≤ b := by
  rw [payMinimum_snd]
  split_ifs
  · exact le_refl b
  · have := le_max_left (0:ℚ) (min d.minimum_payment (b + i) - i)
    linarith
  · exact le_refl b

theorem payMinimum_balance_nonneg (month : Nat) (acc : MonthAcc) (d : DebtInfo) (b i : ℚ)
    (h : 0 ≤ b) : 0 ≤ (payMinimum month acc d b i).2 := by
  rw [payMinimum_snd]
  split_ifs
  · exact h
  · have hmin : min d.minimum_payment (b + i) - i ≤ b := by
      have := min_le_right d.minimum_payment (b + i)
      linarith
    rw [sub_nonneg]
    exact max_le h hmin
  · exact h

theorem payMinimum_conserve (month : Nat) (acc : MonthAcc) (d : DebtInfo) (b i : ℚ) :
    (payMinimum month acc d b i).1.tp + (payMinimum month acc d b i).2 = acc.tp + b := by
  rw [payMinimum_snd, payMinimum_tp]
  split_ifs <;> ring

theorem payMinimum_ti_items (month : Nat) (acc : MonthAcc) (d : DebtInfo) (b i : ℚ) :
    (payMinimum month acc d b i).1.ti - sumInterest (payMinimum month acc d b i).1.items =
      acc.ti - sumInterest acc.items := by
  rw [payMinimum_ti, payMinimum_items]
  split_ifs <;> simp [sumInterest]

theorem payMinimum_tp_items (month : Nat) (acc : MonthAcc) (d : DebtInfo) (b i : ℚ) :
    (payMinimum month acc d b i).1.tp - sumPrincipal (payMinimum month acc d b i).1.items =
      acc.tp - sumPrincipal acc.items := by
  rw [payMinimum_tp, payMinimum_items]
  split_ifs <;> simp [sumPrincipal]

theorem payMinimum_items_sub (month : Nat) (acc : MonthAcc) (d : DebtInfo) (b i : ℚ) :
    ∀ p ∈ (payMinimum month acc d b i).1.items,
      p ∈ acc.items ∨ (p.debt_id = d.id ∧ p.payment_amount ≤ d.minimum_payment) := by
  intro p hp
  rw [payMinimum_items] at hp
  split_ifs at hp
  · exact Or.inl hp
  · simp only [List.mem_append, List.mem_singleton] at hp
    rcases hp with hp | rfl
    · exact Or.inl hp
    · exact Or.inr ⟨rfl, min_le_left _ _⟩
  · exact Or.inl hp

/-! ## Minimum phase over the whole debt list -/

theorem payMinimums_items_sub (month : Nat) (acc : MonthAcc) (l : List (DebtInfo × ℚ × ℚ)) :
    ∀ p ∈ (payMinimums month acc l).1.items,
      p ∈ acc.items ∨ ∃ t ∈ l, p.debt_id = t.1.id ∧ p.payment_amount ≤ t.1.minimum_payment := by
  induction l generalizing acc with
  | nil => intro p hp; exact Or.inl hp
  | cons t rest ih =>
    intro p hp
    obtain ⟨d, b, i⟩ := t
    simp only [payMinimums] at hp
    rcases ih (payMinimum month acc d b i).1 p hp with hp2 | ⟨t2, ht2, h3⟩
    · rcases payMinimum_items_sub month acc d b i p hp2 with hp3 | ⟨h4, h5⟩
      · exact Or.inl hp3
      · exact Or.inr ⟨(d, b, i), List.mem_cons_self _ _, h4, h5⟩
    · exact Or.inr ⟨t2, List.mem_cons_of_mem _ ht2, h3⟩

/-- The minimum phase keeps the debt records and their order. -/
theorem payMinimums_fst (month : Nat) (acc : MonthAcc) (l : List (DebtInfo × ℚ × ℚ)) :
    (payMinimums month acc l).2.map Prod.fst = l.map Prod.fst := by
  induction l generalizing acc with
  | nil => rfl
  | cons t rest ih =>
    obtain ⟨d, b, i⟩ := t
    simp only [payMinimums, List.map_cons]
    rw [ih]

/-- Balances only decrease during the minimum phase. -/
theorem payMinimums_balance_le (month : Nat) (acc : MonthAcc) (l : List (DebtInfo × ℚ × ℚ)) :
    List.Forall₂ (fun (q : DebtInfo × ℚ) (t : DebtInfo × ℚ × ℚ) => q.2 ≤ t.2.1)
      (payMinimums month acc l).2 l := by
  induction l generalizing acc with
  | nil => exact List.Forall₂.nil
  | cons t rest ih =>
    obtain ⟨d, b, i⟩ := t
    exact List.Forall₂.cons (payMinimum_balance_le month acc d b i) (ih _)

/-- Balances stay non-negative during the minimum phase. -/
theorem payMinimums_balance_nonneg (month : Nat) (acc : MonthAcc) (l : List (DebtInfo × ℚ × ℚ))
    (h : ∀ t ∈ l, 0 ≤ t.2.1) :
    ∀ q ∈ (payMinimums month acc l).2, 0 ≤ q.2 := by
  induction l generalizing acc with
  | nil => intro q hq; simp [payMinimums] at hq
  | cons t rest ih =>
    intro q hq
    obtain ⟨d, b, i⟩ := t
    simp only [payMinimums, List.mem_cons] at hq
    rcases hq with rfl | hq2
    · exact payMinimum_balance_nonneg month acc d b i (h (d, b, i) (List.mem_cons_self _ _))
    · exact ih _ (fun t2 ht2 => h t2 (List.mem_cons_of_mem _ ht2)) q hq2

/-- Conservation through the minimum phase: paid principal plus remaining
balances is invariant. -/
theorem payMinimums_conserve (month : Nat) (acc : MonthAcc) (l : List (DebtInfo × ℚ × ℚ)) :
    (payMinimums month acc l).1.tp + ((payMinimums month acc l).2.map (fun q => q.2)).sum =
      acc.tp + (l.map (fun t => t.2.1)).sum := by
  induction l generalizing acc with
  | nil => simp [payMinimums]
  | cons t rest ih =>
    obtain ⟨d, b, i⟩ := t
    simp only [payMinimums, List.map_cons, List.sum_cons]
    have h1 := payMinimum_conserve month acc d b i
    have h2 := ih (payMinimum month acc d b i).1
    linarith

/-- The interest counter moves in lockstep with the recorded items. -/
theorem payMinimums_ti_items (month : Nat) (acc : MonthAcc) (l : List (DebtInfo × ℚ × ℚ)) :
    (payMinimums month acc l).1.ti - sumInterest (payMinimums month acc l).1.items =
      acc.ti - sumInterest acc.items := by
  induction l generalizing acc with
  | nil => rfl
  | cons t rest ih =>
    obtain ⟨d, b, i⟩ := t
    simp only [payMinimums]
    rw [ih]
    exact payMinimum_ti_items month acc d b i

/-- The principal counter moves in lockstep with the recorded items. -/
theorem payMinimums_tp_items (month : Nat) (acc : MonthAcc) (l : List (DebtInfo × ℚ × ℚ)) :
    (payMinimums month acc l).1.tp - sumPrincipal (payMinimums month acc l).1.items =
      acc.tp - sumPrincipal acc.items := by
  induction l generalizing acc with
  | nil => rfl
  | cons t rest ih =>
    obtain ⟨d, b, i⟩ := t
    simp only [payMinimums]
    rw [ih]
    exact payMinimum_tp_items month acc d b i

/-! ## Updating the accelerated item -/

theorem updateFirstItem_sumInterest (did : Nat) (f : PaymentScheduleItem → PaymentScheduleItem)
    (hf : ∀ p, (f p).interest = p.interest) (l : List PaymentScheduleItem) :
    sumInterest (updateFirstItem did f l) = sumInterest l := by
  induction l with
  | nil => rfl
  | cons p ps ih =>
    simp only [updateFirstItem]
    split_ifs
    · simp [sumInterest, hf]
    · simp only [sumInterest, List.map_cons, List.sum_cons] at ih ⊢
      rw [ih]

theorem updateFirstItem_sumPrincipal (did : Nat) (extra : ℚ)
    (f : PaymentScheduleItem → PaymentScheduleItem)
    (hf : ∀ p, (f p).principal = p.principal + extra) (l : List PaymentScheduleItem)
    (h : ∃ p ∈ l, p.debt_id = did) :
    sumPrincipal (updateFirstItem did f l) = sumPrincipal l + extra := by
  induction l with
  | nil => simp at h
  | cons p ps ih =>
    simp only [updateFirstItem]
    split_ifs with h1
    · simp only [sumPrincipal, List.map_cons, List.sum_cons, hf]
      ring
    · obtain ⟨q, hq, hqd⟩ := h
      rcases List.mem_cons.mp hq with rfl | hq2
      · exact absurd (beq_iff_eq.mpr hqd) (by simpa using h1)
      · simp only [sumPrincipal, List.map_cons, List.sum_cons] at ih ⊢
        rw [ih ⟨q, hq2, hqd⟩]
        ring

theorem updateFirstItem_sumPayment (did : Nat) (extra : ℚ)
    (f : PaymentScheduleItem → PaymentScheduleItem)
    (hf : ∀ p, (f p).payment_amount = p.payment_amount + extra) (l : List PaymentScheduleItem)
    (h : ∃ p ∈ l, p.debt_id = did) :
    sumPayment (updateFirstItem did f l) = sumPayment l + extra := by
  induction l with
  | nil => simp at h
  | cons p ps ih =>
    simp only [updateFirstItem]
    split_ifs with h1
    · simp only [sumPayment, List.map_cons, List.sum_cons, hf]
      ring
    · obtain ⟨q, hq, hqd⟩ := h
      rcases List.mem_cons.mp hq with rfl | hq2
      · exact absurd (beq_iff_eq.mpr hqd) (by simpa using h1)
      · simp only [sumPayment, List.map_cons, List.sum_cons] at ih ⊢
        rw [ih ⟨q, hq2, hqd⟩]
        ring

theorem updateFirstItem_countP (did : Nat) (f : PaymentScheduleItem → PaymentScheduleItem)
    (q : PaymentScheduleItem → Bool) (l : List PaymentScheduleItem) :
    (updateFirstItem did f l).countP q ≤ l.countP q + 1 := by
  induction l with
  | nil => simp [updateFirstItem]
  | cons p ps ih =>
    simp only [updateFirstItem]
    split_ifs
    · rw [List.countP_cons, List.countP_cons]
      split_ifs <;> omega
    · rw [List.countP_cons, List.countP_cons]
      omega

/-! ## Extra-payment (acceleration) phase -/

/-- Pointwise reflexivity of the balance comparison. -/
theorem forall₂_balance_refl (l : List (DebtInfo × ℚ)) :
    List.Forall₂ (fun (q t : DebtInfo × ℚ) => q.2 ≤ t.2) l l := by
  induction l with
  | nil => exact List.Forall₂.nil
  | cons t rest ih => exact List.Forall₂.cons (le_refl t.2) ih

theorem payExtra_fst (month : Nat) (acc : MonthAcc) (l : List (DebtInfo × ℚ)) :
    (payExtra month acc l).2.map Prod.fst = l.map Prod.fst := by
  induction l generalizing acc with
  | nil => rfl
  | cons t rest ih =>
    obtain ⟨d, b⟩ := t
    simp only [payExtra]
    split_ifs <;> simp [ih]

/-- Characterization of the balances left by the acceleration step. -/
theorem payExtra_snd (month : Nat) (acc : MonthAcc) (d : DebtInfo) (b : ℚ)
    (rest : List (DebtInfo × ℚ)) :
    (payExtra month acc ((d, b) :: rest)).2 =
      if b ≤ 1/100 ∨ acc.items.all (fun p => !(p.debt_id == d.id)) then
        (d, b) :: (payExtra month acc rest).2
      else if 0 < min acc.budget b then (d, b - min acc.budget b) :: rest
      else (d, b) :: rest := by
  simp only [payExtra]
  split_ifs <;> rfl

/-- The item update applied by the acceleration step. -/
def accelUpdate (extra b2 : ℚ) (p : PaymentScheduleItem) : PaymentScheduleItem :=
  ⟨p.month, p.debt_id, p.payment_amount + extra, p.principal + extra, p.interest,
   max 0 b2, decide (b2 ≤ 1/100)⟩

theorem payExtra_def_accel (month : Nat) (acc : MonthAcc) (d : DebtInfo) (b : ℚ)
    (rest : List (DebtInfo × ℚ)) :
    payExtra month acc ((d, b) :: rest) =
      if b ≤ 1/100 ∨ acc.items.all (fun p => !(p.debt_id == d.id)) then
        ((payExtra month acc rest).1, (d, b) :: (payExtra month acc rest).2)
      else if 0 < min acc.budget b then
        (⟨acc.budget - min acc.budget b, acc.ti, acc.tp + min acc.budget b,
          updateFirstItem d.id (accelUpdate (min acc.budget b) (b - min acc.budget b)) acc.items,
          if decide (b - min acc.budget b ≤ 1/100) &&
              !(acc.payoffs.any (fun p => p.debt_id == d.id)) then
            acc.payoffs ++ [⟨d.id, month, acc.ti, acc.tp + min acc.budget b + acc.ti⟩]
          else acc.payoffs⟩, (d, b - min acc.budget b) :: rest)
      else (acc, (d, b) :: rest) := by
  simp only [payExtra, accelUpdate]
  split_ifs <;> rfl

theorem payExtra_items_char (month : Nat) (acc : MonthAcc) (d : DebtInfo) (b : ℚ)
    (rest : List (DebtInfo × ℚ)) :
    (payExtra month acc ((d, b) :: rest)).1.items =
      if b ≤ 1/100 ∨ acc.items.all (fun p => !(p.debt_id == d.id)) then
        (payExtra month acc rest).1.items
      else if 0 < min acc.budget b then
        updateFirstItem d.id (accelUpdate (min acc.budget b) (b - min acc.budget b)) acc.items
      else acc.items := by
  rw [payExtra_def_accel]
  split_ifs <;> rfl

theorem payExtra_tp_char (month : Nat) (acc : MonthAcc) (d : DebtInfo) (b : ℚ)
    (rest : List (DebtInfo × ℚ)) :
    (payExtra month acc ((d, b) :: rest)).1.tp =
      if b ≤ 1/100 ∨ acc.items.all (fun p => !(p.debt_id == d.id)) then
        (payExtra month acc rest).1.tp
      else if 0 < min acc.budget b then acc.tp + min acc.budget b
      else acc.tp := by
  rw [payExtra_def_accel]
  split_ifs <;> rfl

theorem payExtra_ti_char (month : Nat) (acc : MonthAcc) (d : DebtInfo) (b : ℚ)
    (rest : List (DebtInfo × ℚ)) :
    (payExtra month acc ((d, b) :: rest)).1.ti =
      if b ≤ 1/100 ∨ acc.items.all (fun p => !(p.debt_id == d.id)) then
        (payExtra month acc rest).1.ti
      else acc.ti := by
  rw [payExtra_def_accel]
  split_ifs <;> rfl

/-- In the acceleration branch some already-recorded item carries the
accelerated debt's id (the Python `existing_payment` is not `None`). -/
theorem payExtra_exists_item {acc : MonthAcc} {d : DebtInfo} {b : ℚ}
    (h1 : ¬(b ≤ 1/100 ∨ acc.items.all (fun p => !(p.debt_id == d.id)) = true)) :
    ∃ p ∈ acc.items, p.debt_id = d.id := by
  rcases not_or.mp h1 with ⟨h3, h4⟩
  simp only [List.all_eq_true, Bool.not_eq_true', beq_eq_false_iff_ne, not_forall] at h4
  obtain ⟨p, hp⟩ := h4
  obtain ⟨hpm, hpd⟩ := hp
  refine ⟨p, hpm, ?_⟩
  simpa using hpd

theorem payExtra_balance_le (month : Nat) (acc : MonthAcc) (l : List (DebtInfo × ℚ)) :
    List.Forall₂ (fun (q t : DebtInfo × ℚ) => q.2 ≤ t.2) (payExtra month acc l).2 l := by
  induction l generalizing acc with
  | nil => exact List.Forall₂.nil
  | cons t rest ih =>
    obtain ⟨d, b⟩ := t
    rw [payExtra_snd]
    split_ifs with h1 h2
    · exact List.Forall₂.cons (le_refl b) (ih acc)
    · refine List.Forall₂.cons ?_ (forall₂_balance_refl rest)
      show b - min acc.budget b ≤ b
      have h3 := lt_min_iff.mp h2
      linarith
    · exact List.Forall₂.cons (le_refl b) (forall₂_balance_refl rest)

theorem payExtra_balance_nonneg (month : Nat) (acc : MonthAcc) (l : List (DebtInfo × ℚ))
    (h : ∀ t ∈ l, 0 ≤ t.2) :
    ∀ q ∈ (payExtra month acc l).2, 0 ≤ q.2 := by
  induction l generalizing acc with
  | nil => intro q hq; simp [payExtra] at hq
  | cons t rest ih =>
    intro q hq
    obtain ⟨d, b⟩ := t
    rw [payExtra_snd] at hq
    split_ifs at hq with h1 h2
    · rcases List.mem_cons.mp hq with rfl | hq2
      · exact h (d, b) (List.mem_cons_self _ _)
      · exact ih acc (fun t2 ht2 => h t2 (List.mem_cons_of_mem _ ht2)) q hq2
    · rcases List.mem_cons.mp hq with rfl | hq2
      · show (0:ℚ) ≤ b - min acc.budget b
        have := min_le_right acc.budget b
        linarith
      · exact h q (List.mem_cons_of_mem _ hq2)
    · exact h q hq

theorem payExtra_conserve (month : Nat) (acc : MonthAcc) (l : List (DebtInfo × ℚ)) :
    (payExtra month acc l).1.tp + ((payExtra month acc l).2.map (fun q => q.2)).sum =
      acc.tp + (l.map (fun q => q.2)).sum := by
  induction l generalizing acc with
  | nil => simp [payExtra]
  | cons t rest ih =>
    obtain ⟨d, b⟩ := t
    rw [payExtra_snd, payExtra_tp_char]
    split_ifs with h1 h2
    · simp only [List.map_cons, List.sum_cons]
      have h2 := ih acc
      linarith
    · simp only [List.map_cons, List.sum_cons]
      ring
    · rfl

theorem payExtra_ti (month : Nat) (acc : MonthAcc) (l : List (DebtInfo × ℚ)) :
    (payExtra month acc l).1.ti = acc.ti := by
  induction l generalizing acc with
  | nil => rfl
  | cons t rest ih =>
    obtain ⟨d, b⟩ := t
    rw [payExtra_ti_char]
    split_ifs
    · exact ih acc
    · rfl

theorem payExtra_sumInterest (month : Nat) (acc : MonthAcc) (l : List (DebtInfo × ℚ)) :
    sumInterest (payExtra month acc l).1.items = sumInterest acc.items := by
  induction l generalizing acc with
  | nil => rfl
  | cons t rest ih =>
    obtain ⟨d, b⟩ := t
    rw [payExtra_items_char]
    split_ifs
    · exact ih acc
    · exact updateFirstItem_sumInterest d.id
        (accelUpdate (min acc.budget b) (b - min acc.budget b)) (fun p => rfl) acc.items
    · rfl

theorem payExtra_tp_items (month : Nat) (acc : MonthAcc) (l : List (DebtInfo × ℚ)) :
    (payExtra month acc l).1.tp - sumPrincipal (payExtra month acc l).1.items =
      acc.tp - sumPrincipal acc.items := by
  induction l generalizing acc with
  | nil => rfl
  | cons t rest ih =>
    obtain ⟨d, b⟩ := t
    rw [payExtra_tp_char, payExtra_items_char]
    split_ifs with h1 h2
    · exact ih acc
    · rw [updateFirstItem_sumPrincipal d.id (min acc.budget b)
        (accelUpdate (min acc.budget b) (b - min acc.budget b)) (fun p => rfl) acc.items
        (payExtra_exists_item h1)]
      ring
    · rfl

theorem payExtra_tp_payment (month : Nat) (acc : MonthAcc) (l : List (DebtInfo × ℚ)) :
    (payExtra month acc l).1.tp - sumPayment (payExtra month acc l).1.items =
      acc.tp - sumPayment acc.items := by
  induction l generalizing acc with
  | nil => rfl
  | cons t rest ih =>
    obtain ⟨d, b⟩ := t
    rw [payExtra_tp_char, payExtra_items_char]
    split_ifs with h1 h2
    · exact ih acc
    · rw [updateFirstItem_sumPayment d.id (min acc.budget b)
        (accelUpdate (min acc.budget b) (b - min acc.budget b)) (fun p => rfl) acc.items
        (payExtra_exists_item h1)]
      ring
    · rfl

theorem payExtra_countP (month : Nat) (acc : MonthAcc) (l : List (DebtInfo × ℚ))
    (q : PaymentScheduleItem → Bool) :
    (payExtra month acc l).1.items.countP q ≤ acc.items.countP q + 1 := by
  induction l generalizing acc with
  | nil => simp [payExtra]
  | cons t rest ih =>
    obtain ⟨d, b⟩ := t
    rw [payExtra_items_char]
    split_ifs
    · exact ih acc
    · exact updateFirstItem_countP _ _ _ _
    · omega

/-! ## One month of the simulation -/

theorem forall₂_balance_trans {l1 l2 l3 : List (DebtInfo × ℚ)}
    (h1 : List.Forall₂ (fun (q t : DebtInfo × ℚ) => q.2 ≤ t.2) l1 l2)
    (h2 : List.Forall₂ (fun (q t : DebtInfo × ℚ) => q.2 ≤ t.2) l2 l3) :
    List.Forall₂ (fun (q t : DebtInfo × ℚ) => q.2 ≤ t.2) l1 l3 := by
  induction h1 generalizing l3 with
  | nil => cases h2; exact List.Forall₂.nil
  | cons hab hrest ih =>
    cases h2 with
    | cons hcd hrest2 => exact List.Forall₂.cons (le_trans hab hcd) (ih hrest2)

theorem remTotal_nonneg (l : List (DebtInfo × ℚ)) : 0 ≤ remTotal l := by
  refine List.sum_nonneg ?_
  intro a ha
  simp only [List.mem_map] at ha
  obtain ⟨p, _, rfl⟩ := ha
  exact le_max_left 0 p.2

theorem remTotal_mono {l1 l2 : List (DebtInfo × ℚ)}
    (h : List.Forall₂ (fun (q t : DebtInfo × ℚ) => q.2 ≤ t.2) l1 l2) :
    remTotal l1 ≤ remTotal l2 := by
  induction h with
  | nil => exact le_refl 0
  | cons hab hrest ih =>
    simp only [remTotal, List.map_cons, List.sum_cons] at ih ⊢
    exact add_le_add (max_le_max (le_refl 0) hab) ih

theorem balTotal_nonneg {l : List (DebtInfo × ℚ)} (h : ∀ p ∈ l, 0 ≤ p.2) :
    0 ≤ balTotal l := by
  refine List.sum_nonneg ?_
  intro a ha
  simp only [List.mem_map] at ha
  obtain ⟨p, hp, rfl⟩ := ha
  exact h p hp

/-- The allocation of one month keeps the debt records and their order. -/
theorem monthResult_fst (mp : ℚ) (s : SimState) :
    (monthResult mp s).2.map Prod.fst = s.debts.map Prod.fst := by
  simp only [monthResult]
  split_ifs
  · rw [payExtra_fst, payMinimums_fst, withInterestOf, List.map_map]
    rfl
  · rw [payMinimums_fst, withInterestOf, List.map_map]
    rfl

/-- Balances only decrease within a month. -/
theorem monthResult_balance_le (mp : ℚ) (s : SimState) :
    List.Forall₂ (fun (q t : DebtInfo × ℚ) => q.2 ≤ t.2) (monthResult mp s).2 s.debts := by
  have hmin : List.Forall₂ (fun (q t : DebtInfo × ℚ) => q.2 ≤ t.2)
      (payMinimums (s.month + 1) ⟨mp, s.total_interest, s.total_principal, [], s.payoff_order⟩
        (withInterestOf s)).2 s.debts := by
    have h := payMinimums_balance_le (s.month + 1)
      ⟨mp, s.total_interest, s.total_principal, [], s.payoff_order⟩ (withInterestOf s)
    rw [withInterestOf, List.forall₂_map_right_iff] at h
    exact h
  simp only [monthResult]
  split_ifs
  · exact forall₂_balance_trans (payExtra_balance_le _ _ _) hmin
  · exact hmin

/-- Balances stay non-negative within a month. -/
theorem monthResult_balance_nonneg (mp : ℚ) (s : SimState)
    (h : ∀ p ∈ s.debts, 0 ≤ p.2) :
    ∀ q ∈ (monthResult mp s).2, 0 ≤ q.2 := by
  have hmin : ∀ q ∈ (payMinimums (s.month + 1)
      ⟨mp, s.total_interest, s.total_principal, [], s.payoff_order⟩ (withInterestOf s)).2,
      0 ≤ q.2 := by
    refine payMinimums_balance_nonneg _ _ _ ?_
    intro t ht
    simp only [withInterestOf, List.mem_map] at ht
    obtain ⟨p, hp, rfl⟩ := ht
    exact h p hp
  simp only [monthResult]
  split_ifs
  · exact payExtra_balance_nonneg _ _ _ hmin
  · exact hmin

/-- Conservation within a month: principal paid plus remaining balances. -/
theorem monthResult_conserve (mp : ℚ) (s : SimState) :
    (monthResult mp s).1.tp + balTotal (monthResult mp s).2 =
      s.total_principal + balTotal s.debts := by
  have hsum : ((withInterestOf s).map (fun t => t.2.1)).sum = balTotal s.debts := by
    rw [withInterestOf, List.map_map, balTotal]
    rfl
  have hmin := payMinimums_conserve (s.month + 1)
    ⟨mp, s.total_interest, s.total_principal, [], s.payoff_order⟩ (withInterestOf s)
  rw [hsum] at hmin
  simp only [monthResult]
  split_ifs
  · have hex := payExtra_conserve (s.month + 1)
      (payMinimums (s.month + 1)
        ⟨mp, s.total_interest, s.total_principal, [], s.payoff_order⟩ (withInterestOf s)).1
      (payMinimums (s.month + 1)
        ⟨mp, s.total_interest, s.total_principal, [], s.payoff_order⟩ (withInterestOf s)).2
    rw [balTotal] at hmin ⊢
    rw [balTotal]
    linarith
  · exact hmin

/-- Interest counter versus this month's recorded items. -/
theorem monthResult_ti_items (mp : ℚ) (s : SimState) :
    (monthResult mp s).1.ti = s.total_interest + sumInterest (monthResult mp s).1.items := by
  have hmin := payMinimums_ti_items (s.month + 1)
    ⟨mp, s.total_interest, s.total_principal, [], s.payoff_order⟩ (withInterestOf s)
  simp only [sumInterest, List.map_nil, List.sum_nil, sub_zero] at hmin
  simp only [monthResult]
  split_ifs
  · rw [payExtra_ti, payExtra_sumInterest]
    simp only [sumInterest]
    linarith
  · simp only [sumInterest]
    linarith

/-- Principal counter versus this month's recorded items. -/
theorem monthResult_tp_items (mp : ℚ) (s : SimState) :
    (monthResult mp s).1.tp = s.total_principal + sumPrincipal (monthResult mp s).1.items := by
  have hmin := payMinimums_tp_items (s.month + 1)
    ⟨mp, s.total_interest, s.total_principal, [], s.payoff_order⟩ (withInterestOf s)
  simp only [sumPrincipal, List.map_nil, List.sum_nil, sub_zero] at hmin
  simp only [monthResult]
  split_ifs
  · have hex := payExtra_tp_items (s.month + 1)
      (payMinimums (s.month + 1)
        ⟨mp, s.total_interest, s.total_principal, [], s.payoff_order⟩ (withInterestOf s)).1
      (payMinimums (s.month + 1)
        ⟨mp, s.total_interest, s.total_principal, [], s.payoff_order⟩ (withInterestOf s)).2
    simp only [sumPrincipal] at hex ⊢
    linarith
  · simp only [sumPrincipal]
    linarith

/-! ## Projections of one month's state update -/

theorem monthStep_debts (mp : ℚ) (s : SimState) :
    (monthStep mp s).debts = (monthResult mp s).2 := rfl

theorem monthStep_month (mp : ℚ) (s : SimState) :
    (monthStep mp s).month = s.month + 1 := rfl

theorem monthStep_ti (mp : ℚ) (s : SimState) :
    (monthStep mp s).total_interest = (monthResult mp s).1.ti := rfl

theorem monthStep_tp (mp : ℚ) (s : SimState) :
    (monthStep mp s).total_principal = (monthResult mp s).1.tp := rfl

theorem monthStep_schedule (mp : ℚ) (s : SimState) :
    (monthStep mp s).schedule = s.schedule ++
      [⟨s.month + 1, sumPayment (monthResult mp s).1.items, (monthResult mp s).1.items,
        remTotal (monthResult mp s).2⟩] := rfl

/-- With distinct debt ids, at most one of a month's items pays its debt
beyond that debt's minimum: the minimum phase never does, and the
acceleration touches one item. -/
theorem monthResult_countP (mp : ℚ) (s : SimState) (ds : List DebtInfo)
    (hfst : s.debts.map Prod.fst = ds)
    (hnodup : (ds.map (fun d => d.id)).Nodup) :
    (monthResult mp s).1.items.countP (overMin ds) ≤ 1 := by
  have hmin0 : (payMinimums (s.month + 1)
      ⟨mp, s.total_interest, s.total_principal, [], s.payoff_order⟩
      (withInterestOf s)).1.items.countP (overMin ds) = 0 := by
    rw [List.countP_eq_zero]
    intro p hp
    rcases payMinimums_items_sub _ _ _ p hp with hp0 | ⟨t, ht, hid, hpay⟩
    · simp at hp0
    · have ht1 : t.1 ∈ ds := by
        rw [← hfst]
        have : t.1 ∈ (withInterestOf s).map Prod.fst := List.mem_map_of_mem Prod.fst ht
        rw [withInterestOf, List.map_map] at this
        simpa using this
      intro hover
      simp only [overMin, List.any_eq_true, Bool.and_eq_true, beq_iff_eq,
        decide_eq_true_eq] at hover
      obtain ⟨d, hd, hdid, hlt⟩ := hover
      have hdt : d = t.1 :=
        List.inj_on_of_nodup_map hnodup hd ht1 (by rw [hdid, hid])
      rw [hdt] at hlt
      linarith
  simp only [monthResult]
  split_ifs with h
  · have h2 := payExtra_countP (s.month + 1)
      (payMinimums (s.month + 1)
        ⟨mp, s.total_interest, s.total_principal, [], s.payoff_order⟩ (withInterestOf s)).1
      (payMinimums (s.month + 1)
        ⟨mp, s.total_interest, s.total_principal, [], s.payoff_order⟩ (withInterestOf s)).2
      (overMin ds)
    omega
  · omega

/-! ## The monthly loop -/

theorem simLoop_month_le (mp : ℚ) (fuel : Nat) (s : SimState) :
    (simLoop mp fuel s).month ≤ s.month + fuel := by
  induction fuel generalizing s with
  | zero => simp [simLoop]
  | succ n ih =>
    simp only [simLoop]
    split_ifs
    · have := ih (monthStep mp s)
      rw [monthStep_month] at this
      omega
    · omega

theorem simLoop_fst (mp : ℚ) (fuel : Nat) (s : SimState) :
    (simLoop mp fuel s).debts.map Prod.fst = s.debts.map Prod.fst := by
  induction fuel generalizing s with
  | zero => rfl
  | succ n ih =>
    simp only [simLoop]
    split_ifs
    · rw [ih (monthStep mp s), monthStep_debts, monthResult_fst]
    · rfl

theorem simLoop_nonneg (mp : ℚ) (fuel : Nat) (s : SimState)
    (h : ∀ p ∈ s.debts, 0 ≤ p.2) :
    ∀ q ∈ (simLoop mp fuel s).debts, 0 ≤ q.2 := by
  induction fuel generalizing s with
  | zero => exact h
  | succ n ih =>
    simp only [simLoop]
    split_ifs
    · exact ih (monthStep mp s) (by rw [monthStep_debts]; exact monthResult_balance_nonneg mp s h)
    · exact h

theorem simLoop_conserve (mp : ℚ) (fuel : Nat) (s : SimState) :
    (simLoop mp fuel s).total_principal + balTotal (simLoop mp fuel s).debts =
      s.total_principal + balTotal s.debts := by
  induction fuel generalizing s with
  | zero => rfl
  | succ n ih =>
    simp only [simLoop]
    split_ifs
    · rw [ih (monthStep mp s), monthStep_tp, monthStep_debts]
      exact monthResult_conserve mp s
    · rfl

/-- Total of the interest fields over a recorded schedule. -/
def schedInterest (sch : List MonthlyBreakdown) : ℚ :=
  (sch.map (fun m => sumInterest m.payments)).sum

/-- Total of the principal fields over a recorded schedule. -/
def schedPrincipal (sch : List MonthlyBreakdown) : ℚ :=
  (sch.map (fun m => sumPrincipal m.payments)).sum

/-- Total of the payment_amount fields over a recorded schedule. -/
def schedPayment (sch : List MonthlyBreakdown) : ℚ :=
  (sch.map (fun m => sumPayment m.payments)).sum

/-- The loop keeps `total_remaining` antitone along the schedule,
bounded below by the current remaining total, and non-negative. -/
theorem simLoop_schedule_inv (mp : ℚ) (fuel : Nat) (s : SimState)
    (h1 : s.schedule.Pairwise (fun a b => b.total_remaining ≤ a.total_remaining))
    (h2 : ∀ e ∈ s.schedule, remTotal s.debts ≤ e.total_remaining)
    (h3 : ∀ e ∈ s.schedule, 0 ≤ e.total_remaining) :
    (simLoop mp fuel s).schedule.Pairwise
        (fun a b => b.total_remaining ≤ a.total_remaining) ∧
      (∀ e ∈ (simLoop mp fuel s).schedule,
        remTotal (simLoop mp fuel s).debts ≤ e.total_remaining) ∧
      (∀ e ∈ (simLoop mp fuel s).schedule, 0 ≤ e.total_remaining) := by
  induction fuel generalizing s with
  | zero => exact ⟨h1, h2, h3⟩
  | succ n ih =>
    simp only [simLoop]
    split_ifs
    · have hdec : remTotal (monthStep mp s).debts ≤ remTotal s.debts := by
        rw [monthStep_debts]
        exact remTotal_mono (monthResult_balance_le mp s)
      refine ih (monthStep mp s) ?_ ?_ ?_
      · rw [monthStep_schedule, List.pairwise_append]
        refine ⟨h1, List.pairwise_singleton _ _, ?_⟩
        intro a ha e he
        rw [List.mem_singleton] at he
        subst he
        show remTotal (monthResult mp s).2 ≤ a.total_remaining
        rw [← monthStep_debts]
        exact le_trans hdec (h2 a ha)
      · intro e he
        rw [monthStep_schedule, List.mem_append, List.mem_singleton] at he
        rcases he with he | rfl
        · exact le_trans hdec (h2 e he)
        · show remTotal (monthStep mp s).debts ≤ remTotal (monthResult mp s).2
          rw [monthStep_debts]
      · intro e he
        rw [monthStep_schedule, List.mem_append, List.mem_singleton] at he
        rcases he with he | rfl
        · exact h3 e he
        · exact remTotal_nonneg _
    · exact ⟨h1, h2, h3⟩

/-- The loop keeps the summary counters equal to the sums over the
recorded schedule. -/
theorem simLoop_accounting (mp : ℚ) (fuel : Nat) (s : SimState)
    (h1 : s.total_interest = schedInterest s.schedule)
    (h2 : s.total_principal = schedPrincipal s.schedule) :
    (simLoop mp fuel s).total_interest = schedInterest (simLoop mp fuel s).schedule ∧
      (simLoop mp fuel s).total_principal = schedPrincipal (simLoop mp fuel s).schedule := by
  induction fuel generalizing s with
  | zero => exact ⟨h1, h2⟩
  | succ n ih =>
    simp only [simLoop]
    split_ifs
    · refine ih (monthStep mp s) ?_ ?_
      · rw [monthStep_ti, monthStep_schedule, monthResult_ti_items, schedInterest,
          List.map_append, List.sum_append, h1]
        simp [schedInterest]
      · rw [monthStep_tp, monthStep_schedule, monthResult_tp_items, schedPrincipal,
          List.map_append, List.sum_append, h2]
        simp [schedPrincipal]
    · exact ⟨h1, h2⟩

/-- With distinct ids, every recorded month has at most one item paying
beyond its debt's minimum. -/
theorem simLoop_countP (mp : ℚ) (fuel : Nat) (s : SimState) (ds : List DebtInfo)
    (hfst : s.debts.map Prod.fst = ds)
    (hnodup : (ds.map (fun d => d.id)).Nodup)
    (hsch : ∀ m ∈ s.schedule, m.payments.countP (overMin ds) ≤ 1) :
    ∀ m ∈ (simLoop mp fuel s).schedule, m.payments.countP (overMin ds) ≤ 1 := by
  induction fuel generalizing s with
  | zero => exact hsch
  | succ n ih =>
    simp only [simLoop]
    split_ifs
    · refine ih (monthStep mp s) ?_ ?_
      · rw [monthStep_debts, monthResult_fst, hfst]
      · intro m hm
        rw [monthStep_schedule, List.mem_append, List.mem_singleton] at hm
        rcases hm with hm | rfl
        · exact hsch m hm
        · exact monthResult_countP mp s ds hfst hnodup
    · exact hsch

/-! ## Claim theorems -/

set_option maxRecDepth 4000000

set_option maxHeartbeats 2000000

theorem initState_fst (debts : List DebtInfo) :
    (initState debts).debts.map Prod.fst = debts := by
  show (debts.map (fun d => (d, d.balance))).map Prod.fst = debts
  induction debts with
  | nil => rfl
  | cons d rest ih => simpa using ih

theorem balTotal_le_card {l : List (DebtInfo × ℚ)} {c : ℚ} (h : ∀ p ∈ l, p.2 ≤ c) :
    balTotal l ≤ (l.length : ℚ) * c := by
  induction l with
  | nil => simp [balTotal]
  | cons p rest ih =>
    have h1 := h p (List.mem_cons_self _ _)
    have h2 := ih (fun q hq => h q (List.mem_cons_of_mem _ hq))
    simp only [balTotal, List.map_cons, List.sum_cons, List.length_cons] at h2 ⊢
    push_cast
    nlinarith

/-- C4: in every simulator-produced `monthly_schedule`, `total_remaining` is
non-negative and monotonically non-increasing: whenever month index `i < j`,
the value at `j` is at most the value at `i`. -/
theorem C4_total_remaining_monotone (debts : List DebtInfo) (mp : ℚ) (i j : Nat) (a b : ℚ)
    (hij : i < j)
    (ha : ((simulate_payoff debts mp).monthly_schedule.map
      (fun m => m.total_remaining)).get? i = some a)
    (hb : ((simulate_payoff debts mp).monthly_schedule.map
      (fun m => m.total_remaining)).get? j = some b) :
    b ≤ a ∧ 0 ≤ b ∧ 0 ≤ a := by
  have hinv := simLoop_schedule_inv mp 600 (initState debts) List.Pairwise.nil
    (by intro e he; simp [initState] at he) (by intro e he; simp [initState] at he)
  have hsch : (simulate_payoff debts mp).monthly_schedule =
      (simLoop mp 600 (initState debts)).schedule := rfl
  rw [hsch] at ha hb
  have hpair : ((simLoop mp 600 (initState debts)).schedule.map
      (fun m => m.total_remaining)).Pairwise (fun x y => y ≤ x) := by
    rw [List.pairwise_map]
    exact hinv.1
  obtain ⟨hi, hgi⟩ := List.get?_eq_some.mp ha
  obtain ⟨hj, hgj⟩ := List.get?_eq_some.mp hb
  have hmono := List.pairwise_iff_get.mp hpair ⟨i, hi⟩ ⟨j, hj⟩ hij
  rw [hgi, hgj] at hmono
  have hamem : a ∈ ((simLoop mp 600 (initState debts)).schedule.map
      (fun m => m.total_remaining)) := List.get?_mem ha
  have hbmem : b ∈ ((simLoop mp 600 (initState debts)).schedule.map
      (fun m => m.total_remaining)) := List.get?_mem hb
  rw [List.mem_map] at hamem hbmem
  obtain ⟨ea, hea, rfl⟩ := hamem
  obtain ⟨eb, heb, rfl⟩ := hbmem
  exact ⟨hmono, hinv.2.2 eb heb, hinv.2.2 ea hea⟩

/-- Witness for C4 on a two-month run: a 100-balance zero-APR debt paid at
50 per month leaves `total_remaining` values `[50, 0]`. -/
theorem C4_witness :
    ((simulate_payoff [⟨1, "W", 100, 0, 50⟩] 50).monthly_schedule.map
      (fun m => m.total_remaining)).get? 0 = some 50 ∧
    ((simulate_payoff [⟨1, "W", 100, 0, 50⟩] 50).monthly_schedule.map
      (fun m => m.total_remaining)).get? 1 = some 0 ∧
    ((0:ℚ) ≤ 50 ∧ (0:ℚ) ≤ 0 ∧ (0:ℚ) ≤ 50) :=
  ⟨by with_unfolding_all decide, by with_unfolding_all decide,
   C4_total_remaining_monotone [⟨1, "W", 100, 0, 50⟩] 50 0 1 50 0 (by omega)
     (by with_unfolding_all decide) (by with_unfolding_all decide)⟩

/-- C9 (amended): the summary metrics equal sums over the recorded schedule —
`total_interest` is the sum of all items' `interest` fields (as claimed), and
`total_paid` is the sum of the `principal` fields plus the sum of the
`interest` fields; it is *not* in general the sum of the `payment_amount`
fields, which understate months whose minimum payment is below the accrued
interest (see the counterexample). -/
theorem C9_totals_from_schedule (debts : List DebtInfo) (mp : ℚ) :
    (simulate_payoff debts mp).total_interest =
      schedInterest (simulate_payoff debts mp).monthly_schedule ∧
    (simulate_payoff debts mp).total_paid =
      schedPrincipal (simulate_payoff debts mp).monthly_schedule +
        schedInterest (simulate_payoff debts mp).monthly_schedule := by
  have h := simLoop_accounting mp 600 (initState debts) rfl rfl
  have hms : (simulate_payoff debts mp).monthly_schedule =
      (simLoop mp 600 (initState debts)).schedule := rfl
  have hti : (simulate_payoff debts mp).total_interest =
      (simLoop mp 600 (initState debts)).total_interest := rfl
  have htp : (simulate_payoff debts mp).total_paid =
      (simLoop mp 600 (initState debts)).total_principal +
        (simLoop mp 600 (initState debts)).total_interest := rfl
  rw [hms, hti, htp, h.1, h.2]
  exact ⟨rfl, rfl⟩

/-- Counterexample to C9 as stated: with debts A (1000 at 24% APR, minimum 10)
and B (100 at 0% APR, minimum 100) and budget 110, month 1 pays A's minimum 10
while A accrues 20 of interest, so `total_paid` counts 20 where the
schedule's `payment_amount` records 10; the totals differ. -/
theorem C9_counterexample :
    ¬ ((calculate_plan [⟨1, "A", 1000, 24, 10⟩, ⟨2, "B", 100, 0, 100⟩] 110 .avalanche 0).total_paid =
      schedPayment (calculate_plan [⟨1, "A", 1000, 24, 10⟩, ⟨2, "B", 100, 0, 100⟩]
        110 .avalanche 0).monthly_schedule) := by
  with_unfolding_all decide

/-- C5: in every month of a simulator-produced schedule (debt ids distinct,
input balances non-negative), at most one debt is paid beyond its own
minimum payment, and the acceleration is capped at the accelerated debt's
remaining balance — equivalently, since the extra is subtracted directly
from the balance, every balance remains non-negative after every month. -/
theorem C5_single_acceleration (debts : List DebtInfo) (mp : ℚ)
    (hnodup : (debts.map (fun d => d.id)).Nodup)
    (hbal : ∀ d ∈ debts, 0 ≤ d.balance) :
    (∀ m ∈ (simulate_payoff debts mp).monthly_schedule,
      m.payments.countP (overMin debts) ≤ 1) ∧
    (∀ fuel, ∀ q ∈ (simLoop mp fuel (initState debts)).debts, 0 ≤ q.2) := by
  constructor
  · exact simLoop_countP mp 600 (initState debts) debts (initState_fst debts) hnodup
      (by intro m hm; simp [initState] at hm)
  · intro fuel
    refine simLoop_nonneg mp fuel (initState debts) ?_
    intro p hp
    simp only [initState, List.mem_map] at hp
    obtain ⟨d, hd, rfl⟩ := hp
    exact hbal d hd

/-- Witness for C5 on the two-month example run. -/
theorem C5_witness :
    (∀ m ∈ (simulate_payoff [⟨1, "W", 100, 0, 50⟩] 50).monthly_schedule,
      m.payments.countP (overMin [⟨1, "W", 100, 0, 50⟩]) ≤ 1) ∧
    (∀ fuel, ∀ q ∈ (simLoop 50 fuel (initState [⟨1, "W", 100, 0, 50⟩])).debts, 0 ≤ q.2) :=
  C5_single_acceleration [⟨1, "W", 100, 0, 50⟩] 50 (by decide)
    (by with_unfolding_all decide)

theorem sort_debts_perm (debts : List DebtInfo) (strategy : RepaymentStrategy) :
    (sort_debts debts strategy).Perm debts := by
  cases strategy with
  | avalanche => exact sortKey_perm _ debts
  | snowball => exact sortKey_perm _ debts

/-- C1: conservation — when `calculate_plan` on a non-empty debt list drives
every balance to at most 0.01 within the 600-month cap, `total_paid` equals
`total_interest` plus the sum of the input balances, within a tolerance of
0.01 per input debt (the final residual balances). -/
theorem C1_conservation (debts : List DebtInfo) (available : ℚ)
    (strategy : RepaymentStrategy) (extra : ℚ)
    (hne : debts ≠ [])
    (hbal : ∀ d ∈ debts, 0 ≤ d.balance)
    (hconv : ∀ q ∈ (simLoop (planMonthlyPayment (sort_debts debts strategy) available extra)
        600 (initState (sort_debts debts strategy))).debts, q.2 ≤ 1/100) :
    |(calculate_plan debts available strategy extra).total_paid -
        ((calculate_plan debts available strategy extra).total_interest +
          (debts.map (fun d => d.balance)).sum)| ≤ (debts.length : ℚ) * (1/100) := by
  set sd := sort_debts debts strategy with hsd
  set mpv := planMonthlyPayment sd available extra with hmpv
  have hperm : sd.Perm debts := sort_debts_perm debts strategy
  have hcp : calculate_plan debts available strategy extra = simulate_payoff sd mpv := by
    rw [calculate_plan, if_neg hne]
  set s := simLoop mpv 600 (initState sd) with hs
  have htp : (simulate_payoff sd mpv).total_paid =
      s.total_principal + s.total_interest := rfl
  have hti : (simulate_payoff sd mpv).total_interest = s.total_interest := rfl
  have hcons : s.total_principal + balTotal s.debts =
      (initState sd).total_principal + balTotal (initState sd).debts :=
    simLoop_conserve mpv 600 (initState sd)
  have hinit : balTotal (initState sd).debts = (sd.map (fun d => d.balance)).sum := by
    show ((sd.map (fun d => (d, d.balance))).map (fun p => p.2)).sum = _
    rw [List.map_map]
    rfl
  have hsums : (sd.map (fun d => d.balance)).sum = (debts.map (fun d => d.balance)).sum :=
    (hperm.map (fun d => d.balance)).sum_eq
  have hnn : ∀ q ∈ s.debts, 0 ≤ q.2 := by
    refine simLoop_nonneg mpv 600 (initState sd) ?_
    intro p hp
    simp only [initState, List.mem_map] at hp
    obtain ⟨d, hd, rfl⟩ := hp
    exact hbal d (hperm.mem_iff.mp hd)
  have hlen : s.debts.length = debts.length := by
    have h1 := congrArg List.length (simLoop_fst mpv 600 (initState sd))
    rw [List.length_map, List.length_map] at h1
    have h2 : (initState sd).debts.length = sd.length := by
      show (sd.map (fun d => (d, d.balance))).length = sd.length
      rw [List.length_map]
    rw [h2] at h1
    exact h1.trans hperm.length_eq
  have hble : balTotal s.debts ≤ (debts.length : ℚ) * (1/100) := by
    have h2 := balTotal_le_card hconv
    rw [hlen] at h2
    exact h2
  have hbge : 0 ≤ balTotal s.debts := balTotal_nonneg hnn
  have hzero : (initState sd).total_principal = 0 := rfl
  rw [hcp, htp, hti]
  have htpval : s.total_principal =
      (debts.map (fun d => d.balance)).sum - balTotal s.debts := by
    rw [hzero, hinit, hsums] at hcons
    linarith
  rw [htpval]
  have h0 : (debts.map (fun d => d.balance)).sum - balTotal s.debts + s.total_interest -
      (s.total_interest + (debts.map (fun d => d.balance)).sum) = -(balTotal s.debts) := by
    ring
  rw [h0, abs_neg, abs_of_nonneg hbge]
  exact hble

/-- Witness for C1 on the two-month run that retires a 100 balance with two
payments of 50 and zero interest. -/
theorem C1_witness :
    |(calculate_plan [⟨1, "W", 100, 0, 50⟩] 50 .avalanche 0).total_paid -
        ((calculate_plan [⟨1, "W", 100, 0, 50⟩] 50 .avalanche 0).total_interest +
          (([⟨1, "W", 100, 0, 50⟩] : List DebtInfo).map (fun d => d.balance)).sum)| ≤
      (([⟨1, "W", 100, 0, 50⟩] : List DebtInfo).length : ℚ) * (1/100) :=
  C1_conservation [⟨1, "W", 100, 0, 50⟩] 50 .avalanche 0
    (by simp) (by with_unfolding_all decide) (by with_unfolding_all decide)

/-- C7 (amended): avalanche sorts by descending APR and snowball by ascending
balance, each a deterministic *stable* sort: ties are kept in input order
(for every key value, the sublist with that key equals the input's sublist),
not re-ordered by descending balance / descending APR as the spec claims. -/
theorem C7_sort_characterization (debts : List DebtInfo) :
    ((sort_debts debts .avalanche).Perm debts ∧
      (sort_debts debts .avalanche).Pairwise (fun a b => b.apr ≤ a.apr) ∧
      ∀ q : ℚ, (sort_debts debts .avalanche).filter (fun d => decide (d.apr = q)) =
        debts.filter (fun d => decide (d.apr = q))) ∧
    ((sort_debts debts .snowball).Perm debts ∧
      (sort_debts debts .snowball).Pairwise (fun a b => a.balance ≤ b.balance) ∧
      ∀ q : ℚ, (sort_debts debts .snowball).filter (fun d => decide (d.balance = q)) =
        debts.filter (fun d => decide (d.balance = q))) := by
  constructor
  · refine ⟨sortKey_perm _ debts, ?_, ?_⟩
    · have hp := @sortKey_pairwise DebtInfo (fun a b => decide (b.apr < a.apr))
        (fun a b h => decide_eq_false (lt_asymm (of_decide_eq_true h)))
        (fun a b c h1 h2 => decide_eq_false (not_lt.mpr
          (le_trans (not_lt.mp (of_decide_eq_false h2)) (not_lt.mp (of_decide_eq_false h1)))))
        debts
      exact hp.imp (fun h => not_lt.mp (of_decide_eq_false h))
    · intro q
      exact @sortKey_filter DebtInfo (fun a b => decide (b.apr < a.apr)) (fun d => d.apr)
        (fun a b h => ne_of_gt (of_decide_eq_true h)) debts q
  · refine ⟨sortKey_perm _ debts, ?_, ?_⟩
    · have hp := @sortKey_pairwise DebtInfo (fun a b => decide (a.balance < b.balance))
        (fun a b h => decide_eq_false (lt_asymm (of_decide_eq_true h)))
        (fun a b c h1 h2 => decide_eq_false (not_lt.mpr
          (le_trans (not_lt.mp (of_decide_eq_false h1)) (not_lt.mp (of_decide_eq_false h2)))))
        debts
      exact hp.imp (fun h => not_lt.mp (of_decide_eq_false h))
    · intro q
      exact @sortKey_filter DebtInfo (fun a b => decide (a.balance < b.balance))
        (fun d => d.balance) (fun a b h => ne_of_lt (of_decide_eq_true h)) debts q

/-- Counterexample to C7 as stated: two debts with equal APR stay in input
order under avalanche (the claim demands descending balance, i.e. the
200-balance debt first), and two debts with equal balance stay in input
order under snowball (the claim demands descending APR, i.e. the 10% debt
first). -/
theorem C7_counterexample :
    sort_debts [⟨1, "t1", 100, 10, 0⟩, ⟨2, "t2", 200, 10, 0⟩] .avalanche =
      [⟨1, "t1", 100, 10, 0⟩, ⟨2, "t2", 200, 10, 0⟩] ∧
    (⟨1, "t1", 100, 10, 0⟩ : DebtInfo).balance < (⟨2, "t2", 200, 10, 0⟩ : DebtInfo).balance ∧
    sort_debts [⟨1, "u1", 100, 5, 0⟩, ⟨2, "u2", 100, 10, 0⟩] .snowball =
      [⟨1, "u1", 100, 5, 0⟩, ⟨2, "u2", 100, 10, 0⟩] ∧
    (⟨1, "u1", 100, 5, 0⟩ : DebtInfo).apr < (⟨2, "u2", 100, 10, 0⟩ : DebtInfo).apr := by
  with_unfolding_all decide

/-- C2 (amended): the simulator always terminates at or before the
600-iteration cap — `total_months` never exceeds 600 for any input,
including budgets below the sum of minimum payments — but a cap-hit is not
surfaced as a distinct condition: the counterexample shows an ordinary
success result with `total_months = 600` and the final month still owing
the full balance. -/
theorem C2_terminates_within_cap (debts : List DebtInfo) (available : ℚ)
    (strategy : RepaymentStrategy) (extra : ℚ) :
    (calculate_plan debts available strategy extra).total_months ≤ 600 := by
  rw [calculate_plan]
  split_ifs
  · norm_num
  · show ((simLoop (planMonthlyPayment (sort_debts debts strategy) available extra) 600
      (initState (sort_debts debts strategy))).month : Int) ≤ 600
    have h1 := simLoop_month_le (planMonthlyPayment (sort_debts debts strategy) available extra)
      600 (initState (sort_debts debts strategy))
    have h2 : (simLoop (planMonthlyPayment (sort_debts debts strategy) available extra) 600
        (initState (sort_debts debts strategy))).month ≤ 600 := by
      simpa [initState] using h1
    exact_mod_cast h2

/-- C3: the code raises an insufficient budget to the minimum-payment total
(contradicting both the spec and the comment above the assignment, which
says "use what we have"): with one debt of minimum payment 100 and an
available budget of 50, the applied `monthly_payment` is 100, not 50. -/
theorem C3_budget_bump_evaluated :
    (calculate_plan [⟨1, "C", 1000, 0, 100⟩] 50 .avalanche 0).monthly_payment = 100 ∧
    ¬ ((calculate_plan [⟨1, "C", 1000, 0, 100⟩] 50 .avalanche 0).monthly_payment = 50) := by
  with_unfolding_all decide

/-- C8 (amended): plan generation rejects immediately exactly one input
condition — an empty active-debt list, with the descriptive message shown
below. A non-positive budget is not rejected: `calculate_plan` raises the
monthly payment to the minimum-payment total and simulation runs (see the
counterexample). -/
theorem C8_reject_only_no_debts (debt_infos : List DebtInfo) (custom : Option ℚ)
    (available : ℚ) (strategy : RepaymentStrategy) (extra : ℚ) :
    (isError (generate_plan debt_infos custom available strategy extra) = true ↔
      debt_infos = []) ∧
    generate_plan [] custom available strategy extra =
      .error "No active debts to create a plan for" := by
  constructor
  · rw [generate_plan]
    split_ifs with h
    · simpa [isError] using h
    · simp [isError, h]
  · rw [generate_plan, if_pos rfl]

/-- Counterexample to C8 as stated: a zero monthly budget is not rejected —
`generate_plan` returns an ordinary result and simulation ran for 10 months
(the budget was silently raised to the 100 minimum). -/
theorem C8_counterexample :
    isError (generate_plan [⟨1, "C", 1000, 0, 100⟩] none 0 .avalanche 0) = false ∧
    (generate_plan [⟨1, "C", 1000, 0, 100⟩] none 0 .avalanche 0).toOption.map
      (fun r => r.monthly_schedule.length) = some 10 := by
  with_unfolding_all decide

/-- C6 (amended): the validator accepts a candidate exactly when its
`total_months` is positive, `total_interest` non-negative, the **set** of
`payoff_order` debt ids equals the set of input debt ids, and the schedule
is non-empty with final `total_remaining ≤ 1`. Missing or extra ids are
rejected through the set equality, but duplicated ids inside the input set
are not (see the counterexample): the comparison is on sets, not multisets. -/
theorem C6_validator_characterization (plan : OptimizationResult)
    (debt_infos : List DebtInfo) :
    validate_ai_plan plan debt_infos = true ↔
      (0 < plan.total_months ∧ 0 ≤ plan.total_interest ∧
        (debt_infos.map (fun d => d.id)).toFinset =
          (plan.payoff_order.map (fun p => p.debt_id)).toFinset ∧
        ∃ lastMonth, plan.monthly_schedule.getLast? = some lastMonth ∧
          lastMonth.total_remaining ≤ 1) := by
  rw [validate_ai_plan]
  split_ifs with h1 h2 h3
  · simp only [Bool.false_eq_true, false_iff]
    rintro ⟨hm, _⟩
    omega
  · simp only [Bool.false_eq_true, false_iff]
    rintro ⟨_, hi, _⟩
    linarith
  · simp only [Bool.false_eq_true, false_iff]
    rintro ⟨_, _, he, _⟩
    exact h3 he
  · rcases hlast : plan.monthly_schedule.getLast? with _ | lastm
    · simp only [Bool.false_eq_true, false_iff]
      rintro ⟨_, _, _, l, hl, _⟩
      cases hl
    · dsimp only
      split_ifs with h4
      · simp only [Bool.false_eq_true, false_iff]
        rintro ⟨_, _, _, l, hl, hle⟩
        cases hl
        linarith
      · simp only [true_iff]
        exact ⟨by omega, by linarith, not_not.mp h3, lastm, rfl, by linarith⟩

/-- Counterexample to C6 as stated: a candidate whose `payoff_order` carries
debt id 1 twice (ids `[1, 1, 2]` against input ids `{1, 2}`) passes the
validator, because the check collapses the list into a set. -/
theorem C6_counterexample :
    validate_ai_plan
      ⟨1, 0, 1, 1, [⟨1, 0, [], 0⟩], [], [⟨1, 1, 0, 0⟩, ⟨1, 1, 0, 0⟩, ⟨2, 1, 0, 0⟩]⟩
      [⟨1, "a", 10, 1, 1⟩, ⟨2, "b", 10, 1, 1⟩] = true ∧
    ¬ (([⟨1, 1, 0, 0⟩, ⟨1, 1, 0, 0⟩, ⟨2, 1, 0, 0⟩] : List DebtPayoffInfo).map
        (fun p => p.debt_id)).Nodup := by
  with_unfolding_all decide

/-- C10 (amended): in `_simulate_payoff` no debt's balance ever increases
from one month to the next; when a debt's minimum payment is below its
accrued interest the minimum-phase principal is floored at zero, so that
payment leaves the balance unchanged (only acceleration extra can reduce
it) and the recorded item has `payment_amount < interest`. The minimum-only
baseline, by contrast, does not floor the principal and an underwater
balance there increases (see the counterexample). -/
theorem C10_no_negative_amortization (mp : ℚ) (s : SimState) (month : Nat)
    (acc : MonthAcc) (d : DebtInfo) (b i : ℚ) (hb : 1/100 < b)
    (hbudget : min d.minimum_payment (b + i) ≤ acc.budget)
    (hunder : min d.minimum_payment (b + i) < i) :
    List.Forall₂ (fun (q t : DebtInfo × ℚ) => q.2 ≤ t.2) (monthStep mp s).debts s.debts ∧
    (payMinimum month acc d b i).2 = b ∧
    ∃ it, (payMinimum month acc d b i).1.items = acc.items ++ [it] ∧
      it.principal = 0 ∧ it.payment_amount < it.interest := by
  have hmax : max 0 (min d.minimum_payment (b + i) - i) = 0 := max_eq_left (by linarith)
  refine ⟨by rw [monthStep_debts]; exact monthResult_balance_le mp s, ?_, ?_⟩
  · rw [payMinimum_snd, if_neg (by linarith), if_pos hbudget, hmax, sub_zero]
  · refine ⟨⟨month, d.id, min d.minimum_payment (b + i), 0, i, max 0 b,
      decide (b ≤ 1/100)⟩, ?_, rfl, hunder⟩
    rw [payMinimum_items, if_neg (by linarith), if_pos hbudget, hmax, sub_zero]

/-- Witness for C10: a 1000 balance at 24% APR (20 interest) with minimum
payment 10 and budget 10 keeps its balance and records interest 20 against
a payment of 10. -/
theorem C10_witness :
    List.Forall₂ (fun (q t : DebtInfo × ℚ) => q.2 ≤ t.2)
      (monthStep 0 ⟨[], 0, 0, 0, [], [], []⟩).debts [] ∧
    (payMinimum 1 ⟨10, 0, 0, [], []⟩ ⟨1, "A", 1000, 24, 10⟩ 1000 20).2 = 1000 ∧
    ∃ it, (payMinimum 1 ⟨10, 0, 0, [], []⟩ ⟨1, "A", 1000, 24, 10⟩ 1000 20).1.items =
        [] ++ [it] ∧ it.principal = 0 ∧ it.payment_amount < it.interest :=
  C10_no_negative_amortization 0 ⟨[], 0, 0, 0, [], [], []⟩ 1 ⟨10, 0, 0, [], []⟩
    ⟨1, "A", 1000, 24, 10⟩ 1000 20 (by with_unfolding_all decide)
    (by with_unfolding_all decide) (by with_unfolding_all decide)

/-- Counterexample to C10 as stated: in `calculate_minimum_only_plan` the
principal is *not* floored — one minimum-only month on a 1000 balance at
24% APR with minimum payment 10 grows the balance to 1010. -/
theorem C10_counterexample :
    (minOnlyMonth [(⟨1, "U", 1000, 24, 10⟩, 1000)]).1 =
      [(⟨1, "U", 1000, 24, 10⟩, 1010)] ∧ (1000 : ℚ) < 1010 := by
  with_unfolding_all decide

/-- Counterexample to C2 as stated: one debt of balance 1000 at 24% APR with
minimum payment 10 and an available budget of 5 (below the minimum total,
raised to 10 by `calculate_plan`) never amortizes — the loop runs to the
600-month cap, the final month still reports the full 1000 remaining, and
the caller nevertheless receives an ordinary success result through
`generate_plan` (`Except.ok`), with no distinct unaffordable-budget
condition anywhere in the result. -/
theorem C2_counterexample :
    (calculate_plan [⟨1, "cap", 1000, 24, 10⟩] 5 .avalanche 0).total_months = 600 ∧
    ((calculate_plan [⟨1, "cap", 1000, 24, 10⟩] 5 .avalanche 0).monthly_schedule.getLast?).map
      (fun m => m.total_remaining) = some 1000 ∧
    generate_plan [⟨1, "cap", 1000, 24, 10⟩] none 5 .avalanche 0 =
      .ok (calculate_plan [⟨1, "cap", 1000, 24, 10⟩] 5 .avalanche 0) := by
  refine ⟨?_, ?_, ?_⟩
  · with_unfolding_all decide
  · with_unfolding_all decide
  · rw [generate_plan, if_neg (by simp)]
    rfl
